import Mathlib

/-!
Verification of the XNAT segmentation-to-NIfTI pipeline.

This file gives a shallow embedding of the core of the repository
(src/Code/Step_2_3_DecodeSegmentation.py, src/Code/ConcatMultiplObjects.py,
src/Code/Step_2_4_NiftiGeneration.py) and proves or refutes the testable
properties stated about it.  Numpy 2D label arrays are modelled as lists of
rows of integers, Python dicts as insertion-ordered association lists, and
geometry arithmetic over the rationals.
-/

namespace XNATSeg

/-! ## Common 2D label-array model -/

/-- A numpy 2D array, as a list of rows of integers. -/
abbrev Mask : Type := List (List Int)

/-- First component of a numpy shape tuple (number of rows). -/
def shape0 (m : Mask) : Nat := m.length

/-- Second component of a numpy shape tuple (number of columns, read off the
first row; numpy arrays are rectangular). -/
def shape1 (m : Mask) : Nat := (m.headD []).length

/-- np.zeros with the shape and dtype of an existing array. -/
def zerosLike (m : Mask) : Mask := m.map (fun row => row.map (fun _ => 0))

/-- np.zeros((rows, cols)). -/
def zeroMask (rows cols : Nat) : Mask :=
  List.replicate rows (List.replicate cols 0)

/-- Elementwise numpy addition of two same-shaped arrays. -/
def arrAdd (a b : Mask) : Mask := List.zipWith (List.zipWith (· + ·)) a b

/-- np.clip of one integer to the range 0..1. -/
def clipVal (x : Int) : Int := max 0 (min x 1)

/-- np.clip(m, 0, 1). -/
def clipArr (m : Mask) : Mask := m.map (fun row => row.map clipVal)

/-- np.any(m): some entry is nonzero. -/
def anyNonzero (m : Mask) : Bool := m.any (fun row => row.any (fun v => v != 0))

/-- All entries of the array are 0 or 1. -/
def binaryMask (m : Mask) : Prop := ∀ row ∈ m, ∀ v ∈ row, v = 0 ∨ v = 1

/-! ## Python dicts as insertion-ordered association lists -/

/-- Python dict assignment d[k] = v: overwrite the entry of an existing key in
place, otherwise append a new entry. -/
def dictUpd {K V : Type} [DecidableEq K] (m : List (K × V)) (k : K) (v : V) :
    List (K × V) :=
  if m.any (fun p => decide (p.1 = k)) then
    m.map (fun p => if p.1 = k then (k, v) else p)
  else m ++ [(k, v)]

/-- Python dict lookup d.get(k). -/
def dictGet {K V : Type} [DecidableEq K] (m : List (K × V)) (k : K) : Option V :=
  (m.find? (fun p => decide (p.1 = k))).map (fun p => p.2)

/-! ## Frames (Step_2_3_DecodeSegmentation.py frame dictionaries) -/

/-- One decoded frame dictionary, as built by decode_segmentation_dcm and
consumed by ConcatMultiplObjects.py and Step_2_4_NiftiGeneration.py. -/
structure Frame where
  frame_index : Nat
  segment_number : Option Int
  segment_name : Option String
  segment_color : Option (List Int)
  image_position_patient : Option (List Rat)
  ref_sop_uid : Option String
  pixel_data : Option Mask
deriving DecidableEq, Repr

/-- Segment numbers present among a list of frames (Nones filtered, as in
the list comprehension at ConcatMultiplObjects.py line 171). -/
def segNums (frames : List Frame) : List Int :=
  frames.filterMap (fun fr => fr.segment_number)

/-- Python max(l) with a default for the empty list, as in
ConcatMultiplObjects.py line 172. -/
def pyMaxD (l : List Int) (d : Int) : Int :=
  match l with
  | [] => d
  | x :: xs => xs.foldl max x

/-! ## ConcatMultiplObjects.py: the merge engine -/

/-- One merge directive from a merge plan. -/
structure MergeItem where
  old_objects : List String
  new_object : Option String
deriving DecidableEq, Repr

/-- The slice_map key: (ref_sop_uid, tuple(ipp) if ipp else None). -/
abbrev SliceKey : Type := String × Option (List Rat)

/-- key = (ref_sop_uid, tuple(ipp) if ipp else None) at
ConcatMultiplObjects.py line 193 (an empty position list is falsy). -/
def keyOfFrame (sop : String) (ipp : Option (List Rat)) : SliceKey :=
  (sop, match ipp with
        | some l => if l.isEmpty then none else some l
        | none => none)

/-- slice_map accumulation step: zero-initialise an absent key, then add the
frame's pixel data elementwise (lines 194-196). -/
def smUpdate (m : List (SliceKey × Mask)) (k : SliceKey) (px : Mask) :
    List (SliceKey × Mask) :=
  match dictGet m k with
  | some _ => m.map (fun p => if p.1 = k then (p.1, arrAdd p.2 px) else p)
  | none => m ++ [(k, arrAdd (zerosLike px) px)]

/-- The slice_map built at lines 183-196: frames whose segment name is in
old_objects, with pixel data and a slice identity, summed per key. -/
def buildSliceMap (frames : List Frame) (olds : List String) :
    List (SliceKey × Mask) :=
  frames.foldl
    (fun m fr =>
      match fr.segment_name with
      | none => m
      | some nm =>
        if nm ∈ olds then
          match fr.pixel_data, fr.ref_sop_uid with
          | some px, some sop => smUpdate m (keyOfFrame sop fr.image_position_patient) px
          | _, _ => m
        else m)
    []

/-- Clip every summed mask to the binary range (lines 199-200). -/
def clipSliceMap (m : List (SliceKey × Mask)) : List (SliceKey × Mask) :=
  m.map (fun p => (p.1, clipArr p.2))

/-- The new frames emitted for one directive (lines 207-223): one frame per
slice_map entry with any foreground, with consecutive frame indices starting
at the current frame count and one shared fresh segment number. -/
def newFramesOf (sm : List (SliceKey × Mask)) (startIndex : Nat) (segNum : Int)
    (newName : String) : List Frame :=
  ((sm.filter (fun p => anyNonzero p.2)).enum).map (fun q =>
    { frame_index := startIndex + q.1
      segment_number := some segNum
      segment_name := some newName
      segment_color := none
      image_position_patient := q.2.1.2
      ref_sop_uid := some q.2.1.1
      pixel_data := some q.2.2 })

/-- Mutable state of main's loop over one segmentation object: the frames
list and the running max_seg_num counter. -/
structure MState where
  frames : List Frame
  counter : Int
deriving DecidableEq, Repr

/-- State before the directive loop: max_seg_num = max existing segment
numbers, default 0 (lines 170-172). -/
def initState (frames : List Frame) : MState :=
  { frames := frames, counter := pyMaxD (segNums frames) 0 }

/-- One merge directive (lines 175-240): skip invalid directives; otherwise
sum and clip the selected frames, consume a fresh segment number, and append
the emitted frames (if any).  Returns the new state and the emitted frames. -/
def applyDirective (st : MState) (it : MergeItem) : MState × List Frame :=
  match it.new_object with
  | none => (st, [])
  | some newName =>
    if it.old_objects.isEmpty || newName == "" then (st, [])
    else
      let sm := clipSliceMap (buildSliceMap st.frames it.old_objects)
      let newNum := st.counter + 1
      let nf := newFramesOf sm st.frames.length newNum newName
      if nf.isEmpty then ({ st with counter := newNum }, [])
      else ({ frames := st.frames ++ nf, counter := newNum }, nf)

/-- Run a list of merge directives in order, logging each directive's emitted
frames. -/
def runLog (st : MState) : List MergeItem → MState × List (List Frame)
  | [] => (st, [])
  | it :: rest =>
    let r := applyDirective st it
    let rr := runLog r.1 rest
    (rr.1, r.2 :: rr.2)

/-- The segment number an emission carries (all its frames share it). -/
def emittedNumber (em : List Frame) : Option Int :=
  match em with
  | [] => none
  | fr :: _ => fr.segment_number

/-- The segment numbers of the directives that emitted frames, in order. -/
def emitNums (log : List (List Frame)) : List Int :=
  log.filterMap emittedNumber

/-! ## Step_2_3_DecodeSegmentation.py: decode_segmentation_dcm -/

/-- The per-frame functional-group data resolved at lines 144-167: referenced
segment number, referenced SOP instance UID and plane position (each possibly
absent after the nested optional lookups). -/
structure PerFrameMeta where
  referenced_segment_number : Option Int
  ref_sop_uid : Option String
  image_position_patient : Option (List Rat)
deriving DecidableEq, Repr

/-- One SegmentSequence item (lines 123-134). -/
structure SegDefItem where
  segmentNumber : Option Int
  segmentLabel : Option String
  segmentColor : Option (List Int)
deriving DecidableEq, Repr

/-- The decoded segmentation DICOM dataset, reduced to the fields
decode_segmentation_dcm reads to build its frames array. -/
structure SegDcm where
  numberOfFrames : Option Nat
  perFrameMeta : Option (List PerFrameMeta)
  pixelPlanes : List Mask
  rows : Option Nat
  columns : Option Nat
  segmentItems : List SegDefItem
deriving DecidableEq, Repr

/-- The segment_map of lines 122-134: segment number (truthy only) mapped to
(label or generated Label-n name, color). -/
def buildSegmentMap (items : List SegDefItem) :
    List (Int × (String × Option (List Int))) :=
  items.foldl
    (fun m s =>
      match s.segmentNumber with
      | none => m
      | some n =>
        if n = 0 then m
        else
          dictUpd m n
            ((match s.segmentLabel with
              | some lbl => if lbl == "" then "Label_" ++ toString n else lbl
              | none => "Label_" ++ toString n),
             s.segmentColor))
    []

/-- The 2D pixel data of one frame (lines 169-173): the corresponding plane
of the bulk pixel array, or a zero array past its depth. -/
def framePixel (planes : List Mask) (rows cols : Nat) (i : Nat) : Mask :=
  if i < planes.length then planes.getD i [] else zeroMask rows cols

/-- The fallback frame list of lines 185-198: one frame per plane of the bulk
pixel array, with null-filled identity fields. -/
def fallbackFrames (ds : SegDcm) : List Frame :=
  (List.range ds.pixelPlanes.length).map (fun i =>
    { frame_index := i
      segment_number := none
      segment_name := none
      segment_color := none
      image_position_patient := none
      ref_sop_uid := none
      pixel_data := some (ds.pixelPlanes.getD i []) })

/-- The frames array of lines 136-198: the per-frame metadata branch when the
metadata block is present with the declared length, else the fallback. -/
def decodeFrames (ds : SegDcm) : List Frame :=
  let declared := ds.numberOfFrames.getD 0
  match ds.perFrameMeta with
  | some pfs =>
    if pfs.length = declared then
      (List.range declared).map (fun i =>
        let meta := pfs.getD i ⟨none, none, none⟩
        let idEntry :=
          match meta.referenced_segment_number with
          | none => none
          | some n =>
            if n = 0 then none else dictGet (buildSegmentMap ds.segmentItems) n
        { frame_index := i
          segment_number := meta.referenced_segment_number
          segment_name := idEntry.map (fun e => e.1)
          segment_color :=
            match idEntry with
            | some e => e.2
            | none => none
          image_position_patient := meta.image_position_patient
          ref_sop_uid := meta.ref_sop_uid
          pixel_data :=
            some (framePixel ds.pixelPlanes (ds.rows.getD 0) (ds.columns.getD 0) i) })
    else fallbackFrames ds
  | none => fallbackFrames ds

/-- The part of decode_segmentation_dcm's returned dictionary the frame-count
claims are about. -/
structure DecodedSeg where
  num_frames : Nat
  frames : List Frame
deriving DecidableEq, Repr

/-- decode_segmentation_dcm's frames and recorded num_frames (line 211). -/
def decode_segmentation_dcm (ds : SegDcm) : DecodedSeg :=
  let frames := decodeFrames ds
  { num_frames := frames.length, frames := frames }

/-! ## Step_2_4_NiftiGeneration.py 2.4.1: the reference-series resolver -/

/-- One StudySeries_info.json catalog entry (the fields read at lines 74-86). -/
structure SeriesEntry where
  series_folder_path : String
  series_number : String
  series_uid : Option String
  series_description : String
deriving DecidableEq, Repr

/-- The series_info block attached to a matched segmentation (lines 81-86). -/
structure AttachedSeriesInfo where
  series_folder_path : String
  series_number : String
  series_uid : Option String
  series_description : String
deriving DecidableEq, Repr

/-- What happens to one segmentation record's series_info field. -/
inductive SeriesAttach where
  | untouched
  | nullRef
  | attached (info : AttachedSeriesInfo)
deriving DecidableEq, Repr

/-- The matching loop of lines 74-78: first catalog entry whose series_uid
equals the segmentation's ref_series_uid. -/
def findMatchingSeries (catalog : List (String × SeriesEntry)) (refUid : String) :
    Option (String × SeriesEntry) :=
  catalog.find? (fun kv => decide (kv.2.series_uid = some refUid))

/-- step_2_4_1_create_ready2nifti's per-segmentation update (lines 66-88):
a falsy ref_series_uid leaves the record untouched; otherwise the first
matching entry's fields are attached, or null when none matches. -/
def step_2_4_1_attach (refUid : Option String)
    (catalog : List (String × SeriesEntry)) : SeriesAttach :=
  match refUid with
  | none => .untouched
  | some u =>
    if u = "" then .untouched
    else
      match findMatchingSeries catalog u with
      | some kv =>
        .attached
          { series_folder_path := kv.2.series_folder_path
            series_number := kv.2.series_number
            series_uid := kv.2.series_uid
            series_description := kv.2.series_description }
      | none => .nullRef

/-! ## Step_2_4_NiftiGeneration.py 2.4.2 and 2.4.3: existing-output policy -/

/-- Outcome of nib.load on an existing output file. -/
inductive LoadOutcome where
  | failure
  | success (shape : Nat × Nat × Nat)
deriving DecidableEq, Repr

/-- Whether the step regenerates the output file or leaves it untouched. -/
inductive WriteAction where
  | skip
  | write
deriving DecidableEq, Repr

/-- The existing-file policy of step_2_4_2_create_original_nifti
(lines 228-240): when the file exists and overwrite is off, any successful
load skips creation (the loaded shape is read but never compared), and a
load failure falls through to regeneration. -/
def step_2_4_2_existing_policy (fileExists overwrite : Bool)
    (load : LoadOutcome) : WriteAction :=
  if fileExists && !overwrite then
    match load with
    | .success _ => .skip
    | .failure => .write
  else .write

/-- The existing-file policy of step_2_4_3_create_seg_nifti (lines 397-404):
when the file exists and overwrite is off, a successful load with the
expected shape skips creation; a shape mismatch or load failure falls
through to regeneration. -/
def step_2_4_3_existing_policy (fileExists overwrite : Bool)
    (load : LoadOutcome) (expectedShape : Nat × Nat × Nat) : WriteAction :=
  if fileExists && !overwrite then
    match load with
    | .success sh => if sh = expectedShape then .skip else .write
    | .failure => .write
  else .write

/-! ## Step_2_4_NiftiGeneration.py: the two DICOM series loaders -/

/-- A rational 3-vector. -/
abbrev Vec3 : Type := Rat × Rat × Rat

/-- One image slice of a reference series, reduced to the attributes the two
loaders read (each optional attribute models a getattr/hasattr lookup). -/
structure DSlice where
  instanceNumber : Option Int
  rows : Nat
  cols : Nat
  pixelSpacing : Option (Rat × Rat)
  sliceThickness : Option Rat
  iop : Option (Vec3 × Vec3)
  ipp : Option Vec3
  sopInstanceUid : Option String
  pixels : Mask
deriving DecidableEq, Repr

/-- The sort key of both loaders: getattr(ds, InstanceNumber, 0). -/
def sliceSortKey (ds : DSlice) : Int := ds.instanceNumber.getD 0

/-- Stable insertion into a sorted list: the new element goes after every
already-placed element whose key is less than or equal to its own, so
elements with equal keys keep their original relative order, as in Python's
stable list.sort. -/
def insertSorted (x : DSlice) : List DSlice → List DSlice
  | [] => [x]
  | y :: ys =>
    if sliceSortKey y ≤ sliceSortKey x then y :: insertSorted x ys
    else x :: y :: ys

/-- slices.sort(key=...) as used identically at lines 127-129 and line 298:
a stable sort by InstanceNumber with default 0. -/
def sortSlices (slices : List DSlice) : List DSlice :=
  slices.foldl (fun acc x => insertSorted x acc) []

/-- np.cross of two 3-vectors. -/
def crossProd (a b : Vec3) : Vec3 :=
  (a.2.1 * b.2.2 - a.2.2 * b.2.1,
   a.2.2 * b.1 - a.1 * b.2.2,
   a.1 * b.2.1 - a.2.1 * b.1)

/-- The 4x4 affine both loaders assemble column by column (lines 169-178 and
313-320): scaled direction cosines in the first three columns, the
translation in the last, and a homogeneous bottom row. -/
def mkAffine (rowCos colCos sliceCos : Vec3) (s0 s1 s2 : Rat) (t : Vec3) :
    List (List Rat) :=
  [[rowCos.1 * s0, colCos.1 * s1, sliceCos.1 * s2, t.1],
   [rowCos.2.1 * s0, colCos.2.1 * s1, sliceCos.2.1 * s2, t.2.1],
   [rowCos.2.2 * s0, colCos.2.2 * s1, sliceCos.2.2 * s2, t.2.2],
   [0, 0, 0, 1]]

/-- Cast to the int16 dtype of the stacked volume (line 150). -/
def toInt16 (x : Int) : Int := (x + 32768) % 65536 - 32768

/-- Result of load_dicom_series. -/
structure IntensityResult where
  volume : List Mask
  affine : List (List Rat)
  dims : Nat × Nat × Nat
deriving DecidableEq, Repr

/-- Result of load_sop_uid_order (the pixel dtype it also returns plays no
role in the claims and is omitted). -/
structure SopOrderResult where
  sopList : List (Option String)
  shape : Nat × Nat × Nat
  affine : List (List Rat)
deriving DecidableEq, Repr

/-- load_dicom_series (lines 103-180): sort the slices, stack the pixel data
into an int16 volume of shape (rows, cols, n_slices), and build the affine
from the first sorted slice's geometry; none models the raise on an empty
series. -/
def load_dicom_series (slices0 : List DSlice) : Option IntensityResult :=
  match sortSlices slices0 with
  | [] => none
  | sample :: rest =>
    let slices := sample :: rest
    let rows := sample.rows
    let cols := sample.cols
    let px_spacing :=
      match sample.pixelSpacing with
      | some ps => ps
      | none => ((1 : Rat), (1 : Rat))
    let slice_thick :=
      match sample.sliceThickness with
      | some st => st
      | none => (1 : Rat)
    let iop :=
      match sample.iop with
      | some v => v
      | none => (((1 : Rat), (0 : Rat), (0 : Rat)), ((0 : Rat), (1 : Rat), (0 : Rat)))
    let n_slices := slices.length
    let volume := slices.map (fun s => s.pixels.map (fun row => row.map toInt16))
    let slice_cos := crossProd iop.1 iop.2
    let t :=
      match sample.ipp with
      | some p => p
      | none => ((0 : Rat), (0 : Rat), (0 : Rat))
    some
      { volume := volume
        affine := mkAffine iop.1 iop.2 slice_cos px_spacing.1 px_spacing.2 slice_thick t
        dims := (rows, cols, n_slices) }

/-- load_sop_uid_order (lines 287-330): sort the slices the same way, collect
the per-slice SOP instance UIDs in that order, and compute the shape and
affine from the first sorted slice's geometry; none models the raise on an
empty series. -/
def load_sop_uid_order (slices0 : List DSlice) : Option SopOrderResult :=
  match sortSlices slices0 with
  | [] => none
  | sample :: rest =>
    let slices := sample :: rest
    let rows := sample.rows
    let cols := sample.cols
    let px_spacing := sample.pixelSpacing.getD ((1 : Rat), (1 : Rat))
    let slice_thick := sample.sliceThickness.getD (1 : Rat)
    let iop :=
      sample.iop.getD
        (((1 : Rat), (0 : Rat), (0 : Rat)), ((0 : Rat), (1 : Rat), (0 : Rat)))
    let slice_cos := crossProd iop.1 iop.2
    let t :=
      match sample.ipp with
      | some p => p
      | none => ((0 : Rat), (0 : Rat), (0 : Rat))
    let sop_list := slices.map (fun s => s.sopInstanceUid)
    some
      { sopList := sop_list
        shape := (rows, cols, slices.length)
        affine := mkAffine iop.1 iop.2 slice_cos px_spacing.1 px_spacing.2 slice_thick t }

/-! ## Step_2_4_NiftiGeneration.py 2.4.3: label-volume construction -/

/-- The sop_uid_to_index dict built at lines 362-364 by successive dict
assignments over the enumerated SOP UID list. -/
def buildSopIndexAux (sl : List (Option String)) (i0 : Nat)
    (m : List (Option String × Nat)) : List (Option String × Nat) :=
  match sl with
  | [] => m
  | s :: rest => buildSopIndexAux rest (i0 + 1) (dictUpd m s i0)

/-- sop_uid_to_index for a series' ordered SOP UID list. -/
def buildSopIndex (sl : List (Option String)) : List (Option String × Nat) :=
  buildSopIndexAux sl 0 []

/-- The per-segment-name placement list gathered at lines 366-376: for each
frame with that segment name, pixel data, and a slice identity found in
sop_uid_to_index, the pair (slice index, 2D mask), in frame order. -/
def placementsFor (frames : List Frame) (sl : List (Option String))
    (name : Option String) : List (Nat × Mask) :=
  frames.filterMap (fun fr =>
    if fr.segment_name = name then
      match fr.pixel_data, dictGet (buildSopIndex sl) fr.ref_sop_uid with
      | some px, some i => some (i, px)
      | _, _ => none
    else none)

/-- One placement (lines 386-391): assign the whole slice when the 2D shape
matches the series' (rows, cols), otherwise warn and leave the volume
unchanged. -/
def placeFrame (vol : List Mask) (rows cols : Nat) (p : Nat × Mask) : List Mask :=
  if shape0 p.2 = rows ∧ shape1 p.2 = cols then vol.set p.1 p.2 else vol

/-- All placements of one segment name, in order. -/
def placeAllFrames (vol : List Mask) (rows cols : Nat) (ps : List (Nat × Mask)) :
    List Mask :=
  ps.foldl (fun v p => placeFrame v rows cols p) vol

/-- The 3D mask built for one segment name (lines 381-391): a zero volume of
the reference series' shape, filled by the placements.  The volume is
represented as its list of 2D slices along the third axis. -/
def buildSegMask (frames : List Frame) (sl : List (Option String))
    (rows cols : Nat) (name : Option String) : List Mask :=
  placeAllFrames (List.replicate sl.length (zeroMask rows cols)) rows cols
    (placementsFor frames sl name)

/-! ## Concrete inputs used by the counterexamples and witnesses -/

/-- Concrete frame and directives for the C2 counterexample and witness: one
existing frame named A with segment number 5, a first directive matching no
frame, and a second directive matching A. -/
def c2Frame : Frame :=
  { frame_index := 0, segment_number := some 5, segment_name := some "A",
    segment_color := none, image_position_patient := none,
    ref_sop_uid := some "u1", pixel_data := some [[1]] }

def c2First : MergeItem := { old_objects := ["Z"], new_object := some "X" }

def c2Second : MergeItem := { old_objects := ["A"], new_object := some "Y" }

/-- Concrete frames for the C3 witness: two overlapping binary source
objects A and B on the same slice. -/
def c3FrameA : Frame :=
  { frame_index := 0, segment_number := some 1, segment_name := some "A",
    segment_color := none, image_position_patient := none,
    ref_sop_uid := some "u1", pixel_data := some [[1]] }

def c3FrameB : Frame :=
  { frame_index := 1, segment_number := some 2, segment_name := some "B",
    segment_color := none, image_position_patient := none,
    ref_sop_uid := some "u1", pixel_data := some [[1]] }

def c3Item : MergeItem := { old_objects := ["A", "B"], new_object := some "C" }

/-- Concrete datasets for the C4 witness: one with well-formed per-frame
metadata, one whose metadata length disagrees with the declared count. -/
def c4Meta : PerFrameMeta :=
  { referenced_segment_number := some 1, ref_sop_uid := some "u1",
    image_position_patient := none }

def c4DsMain : SegDcm :=
  { numberOfFrames := some 1, perFrameMeta := some [c4Meta],
    pixelPlanes := [[[1]]], rows := some 1, columns := some 1,
    segmentItems := [{ segmentNumber := some 1, segmentLabel := some "A",
                       segmentColor := none }] }

def c4DsFb : SegDcm :=
  { numberOfFrames := some 2, perFrameMeta := some [c4Meta],
    pixelPlanes := [[[1]], [[0]]], rows := some 1, columns := some 1,
    segmentItems := [] }

/-- Concrete catalog for the C9 witness. -/
def c9Match : SeriesEntry :=
  { series_folder_path := "/data/s1", series_number := "2",
    series_uid := some "uidA", series_description := "ct" }

def c9Other : SeriesEntry :=
  { series_folder_path := "/data/s3", series_number := "3",
    series_uid := some "uidB", series_description := "mr" }

/-- Concrete frame for the C5 counterexample: a frame with absent slice
identity over a reference series whose single slice also lacks its
identifier. -/
def c5Frame : Frame :=
  { frame_index := 0, segment_number := some 1, segment_name := some "S",
    segment_color := none, image_position_patient := none,
    ref_sop_uid := none, pixel_data := some [[1]] }

/-- Concrete frames for the C5 witness: one matching the second identifier,
one matching nothing. -/
def c5Matched : Frame :=
  { frame_index := 0, segment_number := some 1, segment_name := some "S",
    segment_color := none, image_position_patient := none,
    ref_sop_uid := some "b", pixel_data := some [[1]] }

def c5Unmatched : Frame :=
  { frame_index := 0, segment_number := some 1, segment_name := some "S",
    segment_color := none, image_position_patient := none,
    ref_sop_uid := some "zzz", pixel_data := some [[1]] }

/-- Concrete one-slice series for the C6 witness: all geometry attributes
absent, so both loaders use their documented defaults. -/
def c6Slice : DSlice :=
  { instanceNumber := some 1, rows := 1, cols := 1, pixelSpacing := none,
    sliceThickness := none, iop := none, ipp := none,
    sopInstanceUid := some "s0", pixels := [[7]] }

/-! ## Helper lemmas about the merge engine -/

theorem clipVal_binary (x : Int) : clipVal x = 0 ∨ clipVal x = 1 := by
  unfold clipVal
  omega

theorem binaryMask_clipArr (m : Mask) : binaryMask (clipArr m) := by
  intro row hrow v hv
  unfold clipArr at hrow
  obtain ⟨row0, -, rfl⟩ := List.mem_map.mp hrow
  obtain ⟨v0, -, rfl⟩ := List.mem_map.mp hv
  exact clipVal_binary v0

/-- Every frame emitted by newFramesOf carries the shared segment number and
a pixel array taken from the (already clipped) slice map. -/
theorem mem_newFramesOf_fields {sm : List (SliceKey × Mask)} {startIndex : Nat}
    {segNum : Int} {newName : String} {fr : Frame}
    (h : fr ∈ newFramesOf sm startIndex segNum newName) :
    fr.segment_number = some segNum ∧ fr.segment_name = some newName ∧
    ∃ p ∈ sm, fr.pixel_data = some p.2 := by
  unfold newFramesOf at h
  obtain ⟨q, hq, rfl⟩ := List.mem_map.mp h
  obtain ⟨i, p⟩ := q
  have hmem := List.mem_enum hq
  refine ⟨rfl, rfl, p, ?_, rfl⟩
  have hp : p ∈ (sm.filter (fun p => anyNonzero p.2)) := by
    rw [hmem.2]
    exact List.getElem_mem _
  exact (List.mem_filter.mp hp).1

/-- Case analysis on one merge directive: it is skipped as invalid, or it
consumes a segment number without emitting, or it consumes a segment number
and appends its emitted frames. -/
theorem applyDirective_cases (st : MState) (it : MergeItem) :
    applyDirective st it = (st, [])
    ∨ applyDirective st it = ({ st with counter := st.counter + 1 }, [])
    ∨ (∃ newName nf,
        nf = newFramesOf (clipSliceMap (buildSliceMap st.frames it.old_objects))
              st.frames.length (st.counter + 1) newName
        ∧ nf ≠ []
        ∧ applyDirective st it
            = ({ frames := st.frames ++ nf, counter := st.counter + 1 }, nf)) := by
  rcases hres : applyDirective st it with ⟨st2, em⟩
  unfold applyDirective at hres
  split at hres
  · cases hres
    exact Or.inl rfl
  · split at hres
    · cases hres
      exact Or.inl rfl
    · simp only [List.isEmpty_iff] at hres
      split at hres
      · cases hres
        exact Or.inr (Or.inl rfl)
      · rename_i hemp
        cases hres
        exact Or.inr (Or.inr ⟨_, _, rfl, hemp, rfl⟩)

theorem applyDirective_frames_eq (st : MState) (it : MergeItem) :
    (applyDirective st it).1.frames = st.frames ++ (applyDirective st it).2 := by
  rcases applyDirective_cases st it with h | h | ⟨nm, nf, -, -, h⟩ <;> rw [h] <;> simp

theorem applyDirective_counter_le (st : MState) (it : MergeItem) :
    st.counter ≤ (applyDirective st it).1.counter := by
  rcases applyDirective_cases st it with h | h | ⟨nm, nf, -, -, h⟩ <;> rw [h] <;> simp

theorem applyDirective_emitted_number (st : MState) (it : MergeItem) :
    ∀ fr ∈ (applyDirective st it).2, fr.segment_number = some (st.counter + 1) := by
  intro fr hfr
  rcases applyDirective_cases st it with h | h | ⟨nm, nf, hnf, -, h⟩ <;> rw [h] at hfr
  · cases hfr
  · cases hfr
  · exact (mem_newFramesOf_fields (hnf ▸ hfr)).1

theorem applyDirective_counter_emit (st : MState) (it : MergeItem)
    (h : (applyDirective st it).2 ≠ []) :
    (applyDirective st it).1.counter = st.counter + 1 := by
  rcases applyDirective_cases st it with he | he | ⟨nm, nf, -, -, he⟩ <;>
    rw [he] at h ⊢
  exact absurd rfl h

theorem runLog_frames_append (st : MState) (its : List MergeItem) :
    ∃ tl, (runLog st its).1.frames = st.frames ++ tl := by
  induction its generalizing st with
  | nil => exact ⟨[], by simp [runLog]⟩
  | cons it rest ih =>
    obtain ⟨tl, htl⟩ := ih (applyDirective st it).1
    refine ⟨(applyDirective st it).2 ++ tl, ?_⟩
    show (runLog (applyDirective st it).1 rest).1.frames = _
    rw [htl, applyDirective_frames_eq st it, List.append_assoc]

theorem runLog_counter_le (st : MState) (its : List MergeItem) :
    st.counter ≤ (runLog st its).1.counter := by
  induction its generalizing st with
  | nil => simp [runLog]
  | cons it rest ih =>
    exact le_trans (applyDirective_counter_le st it) (ih (applyDirective st it).1)

theorem runLog_emitNums_gt (st : MState) (its : List MergeItem) :
    ∀ x ∈ emitNums (runLog st its).2, st.counter < x := by
  induction its generalizing st with
  | nil => simp [runLog, emitNums]
  | cons it rest ih =>
    intro x hx
    have hx' : x ∈ emitNums ((applyDirective st it).2 :: (runLog (applyDirective st it).1 rest).2) := hx
    unfold emitNums at hx'
    rw [List.filterMap_cons] at hx'
    cases hem : (applyDirective st it).2 with
    | nil =>
      rw [hem] at hx'
      simp only [emittedNumber] at hx'
      exact lt_of_le_of_lt (applyDirective_counter_le st it) (ih _ x hx')
    | cons fr tl =>
      rw [hem] at hx'
      have hnum : fr.segment_number = some (st.counter + 1) :=
        applyDirective_emitted_number st it fr (hem ▸ List.mem_cons_self fr tl)
      simp only [emittedNumber, hnum] at hx'
      rcases List.mem_cons.mp hx' with rfl | hx''
      · omega
      · have h2 := ih (applyDirective st it).1 x hx''
        have h3 : (applyDirective st it).1.counter = st.counter + 1 :=
          applyDirective_counter_emit st it (by rw [hem]; simp)
        omega

theorem runLog_emitNums_pairwise (st : MState) (its : List MergeItem) :
    (emitNums (runLog st its).2).Pairwise (· < ·) := by
  induction its generalizing st with
  | nil => simp [runLog, emitNums]
  | cons it rest ih =>
    show (emitNums ((applyDirective st it).2 :: (runLog (applyDirective st it).1 rest).2)).Pairwise _
    unfold emitNums
    rw [List.filterMap_cons]
    cases hem : (applyDirective st it).2 with
    | nil => exact ih (applyDirective st it).1
    | cons fr tl =>
      have hnum : fr.segment_number = some (st.counter + 1) :=
        applyDirective_emitted_number st it fr (hem ▸ List.mem_cons_self fr tl)
      simp only [emittedNumber, hnum]
      refine List.Pairwise.cons ?_ (ih (applyDirective st it).1)
      intro x hx
      have h2 := runLog_emitNums_gt (applyDirective st it).1 rest x hx
      have h3 : (applyDirective st it).1.counter = st.counter + 1 :=
        applyDirective_counter_emit st it (by rw [hem]; simp)
      omega

/-! ## Helper lemmas about pyMaxD -/

theorem foldl_max_init_le (xs : List Int) (a : Int) : a ≤ xs.foldl max a := by
  induction xs generalizing a with
  | nil => simp
  | cons x xs ih =>
    rw [List.foldl_cons]
    exact le_trans (le_max_left a x) (ih (max a x))

theorem mem_le_foldl_max {y : Int} {xs : List Int} (a : Int) (hy : y ∈ xs) :
    y ≤ xs.foldl max a := by
  induction xs generalizing a with
  | nil => cases hy
  | cons x xs ih =>
    rw [List.foldl_cons]
    rcases List.mem_cons.mp hy with rfl | h
    · exact le_trans (le_max_right a y) (foldl_max_init_le xs (max a y))
    · exact ih (max a x) h

theorem le_pyMaxD {y : Int} {l : List Int} (d : Int) (h : y ∈ l) : y ≤ pyMaxD l d := by
  cases l with
  | nil => cases h
  | cons x xs =>
    show y ≤ xs.foldl max x
    rcases List.mem_cons.mp h with rfl | h2
    · exact foldl_max_init_le xs y
    · exact mem_le_foldl_max x h2

theorem foldl_max_le {x : Int} (l : List Int) (a : Int) (ha : a ≤ x)
    (h : ∀ y ∈ l, y ≤ x) : l.foldl max a ≤ x := by
  induction l generalizing a with
  | nil => simpa using ha
  | cons z zs ih =>
    rw [List.foldl_cons]
    exact ih (max a z) (max_le ha (h z (List.mem_cons_self z zs)))
      (fun y hy => h y (List.mem_cons_of_mem z hy))

theorem foldl_max_of_le (zs : List Int) (a : Int) (h : ∀ y ∈ zs, y ≤ a) :
    zs.foldl max a = a :=
  le_antisymm (foldl_max_le zs a le_rfl h) (foldl_max_init_le zs a)

theorem pyMaxD_append_const {l₁ l₂ : List Int} {x : Int} (d : Int)
    (h₂ : l₂ ≠ []) (hall : ∀ y ∈ l₂, y = x) (h₁ : ∀ y ∈ l₁, y ≤ x) :
    pyMaxD (l₁ ++ l₂) d = x := by
  cases l₂ with
  | nil => exact absurd rfl h₂
  | cons z zs =>
    have hz : z = x := hall z (List.mem_cons_self z zs)
    have hzs : ∀ y ∈ zs, y ≤ x :=
      fun y hy => le_of_eq (hall y (List.mem_cons_of_mem z hy))
    cases l₁ with
    | nil =>
      show zs.foldl max z = x
      rw [hz]
      exact foldl_max_of_le zs x hzs
    | cons w ws =>
      show (ws ++ z :: zs).foldl max w = x
      rw [List.foldl_append, List.foldl_cons]
      have hwx : w ≤ x := h₁ w (List.mem_cons_self w ws)
      have ha : ws.foldl max w ≤ x :=
        foldl_max_le ws w hwx (fun y hy => h₁ y (List.mem_cons_of_mem w hy))
      have hmx : max (ws.foldl max w) z = x := by
        rw [hz]
        exact max_eq_right ha
      rw [hmx]
      exact foldl_max_of_le zs x hzs

theorem segNums_append (a b : List Frame) :
    segNums (a ++ b) = segNums a ++ segNums b :=
  List.filterMap_append a b _

theorem segNums_const {em : List Frame} {n : Int}
    (h : ∀ fr ∈ em, fr.segment_number = some n) :
    (∀ y ∈ segNums em, y = n) ∧ (em ≠ [] → segNums em ≠ []) := by
  constructor
  · intro y hy
    obtain ⟨fr, hfr, hy2⟩ := List.mem_filterMap.mp hy
    rw [h fr hfr] at hy2
    exact (Option.some_inj.mp hy2).symm
  · intro hne
    cases em with
    | nil => exact absurd rfl hne
    | cons fr tl =>
      show (segNums (fr :: tl)) ≠ []
      unfold segNums
      rw [List.filterMap_cons, h fr (List.mem_cons_self fr tl)]
      simp

/-- A directive that emits at least one frame re-establishes the invariant
that the running counter equals the max existing segment number. -/
theorem applyDirective_inv (st : MState) (it : MergeItem)
    (hinv : st.counter = pyMaxD (segNums st.frames) 0)
    (h : (applyDirective st it).2 ≠ []) :
    (applyDirective st it).1.counter
      = pyMaxD (segNums (applyDirective st it).1.frames) 0 := by
  have hfr := applyDirective_frames_eq st it
  have hc := applyDirective_counter_emit st it h
  have hnum := applyDirective_emitted_number st it
  obtain ⟨hall, hne⟩ := segNums_const hnum
  rw [hc, hfr, segNums_append,
    pyMaxD_append_const 0 (hne h) hall
      (fun y hy => by have h2 := le_pyMaxD (y := y) 0 hy; omega)]

/-- Within each directive's emission all frames share one segment number. -/
theorem runLog_emissions_share (st : MState) (its : List MergeItem) :
    ∀ em ∈ (runLog st its).2, ∀ fr ∈ em, fr.segment_number = emittedNumber em := by
  induction its generalizing st with
  | nil => simp [runLog]
  | cons it rest ih =>
    intro em hem fr hfr
    have hem' : em ∈ (applyDirective st it).2 :: (runLog (applyDirective st it).1 rest).2 := hem
    rcases List.mem_cons.mp hem' with rfl | h2
    · have h1 := applyDirective_emitted_number st it fr hfr
      cases hc : (applyDirective st it).2 with
      | nil =>
        rw [hc] at hfr
        cases hfr
      | cons f0 tl =>
        have h0 := applyDirective_emitted_number st it f0 (hc ▸ List.mem_cons_self f0 tl)
        show fr.segment_number = f0.segment_number
        rw [h1, h0]
    · exact ih (applyDirective st it).1 em h2 fr hfr

/-! ## Claim theorems: the merge engine -/

/-- C2 counterexample: in the run of the two directives over the one frame
with segment number 5, the first (valid but frame-less) directive emits
nothing yet consumes a number, so the second directive's frames carry
segment number 7, while max(existing segment numbers at the time of its
execution) + 1 = 5 + 1 = 6 — the claimed value.  So a directive's shared
number does not always equal max existing at execution time plus one. -/
theorem merge_numbering_skips_cex :
    (runLog (initState [c2Frame]) [c2First, c2Second]).2.map emittedNumber
        = [none, some 7]
    ∧ pyMaxD (segNums ((applyDirective (initState [c2Frame]) c2First).1.frames)) 0 + 1
        = 6 :=
  ⟨rfl, rfl⟩

/-- C2 (amended): each merge directive's newly emitted frames all share one
segment number; when the directive executes from a state whose running
counter equals the max existing segment number (as it does before the first
directive, and again after every directive that emits at least one frame),
that shared number is max(existing segment numbers) + 1; and distinct
directives in the same run receive strictly increasing segment numbers.  A
valid directive that emits no frames still consumes a number, which is what
the counterexample exploits. -/
theorem merge_segment_numbering_amended (frames0 : List Frame) (st : MState)
    (it : MergeItem) (its : List MergeItem) :
    (initState frames0).counter = pyMaxD (segNums frames0) 0
    ∧ (st.counter = pyMaxD (segNums st.frames) 0 →
        ∀ fr ∈ (applyDirective st it).2,
          fr.segment_number = some (pyMaxD (segNums st.frames) 0 + 1))
    ∧ (st.counter = pyMaxD (segNums st.frames) 0 → (applyDirective st it).2 ≠ [] →
        (applyDirective st it).1.counter
          = pyMaxD (segNums (applyDirective st it).1.frames) 0)
    ∧ (∀ em ∈ (runLog st its).2, ∀ fr ∈ em, fr.segment_number = emittedNumber em)
    ∧ (emitNums (runLog st its).2).Pairwise (· < ·) := by
  refine ⟨rfl, ?_, fun hinv h => applyDirective_inv st it hinv h,
    runLog_emissions_share st its, runLog_emitNums_pairwise st its⟩
  intro hinv fr hfr
  rw [← hinv]
  exact applyDirective_emitted_number st it fr hfr

/-- Witness for merge_segment_numbering_amended: before the first directive
the invariant holds by construction, and the directive over the concrete
frame emits the frame below, numbered max existing + 1 = 6. -/
theorem merge_segment_numbering_amended_witness :
    ({ frame_index := 1, segment_number := some 6, segment_name := some "Y",
       segment_color := none, image_position_patient := none,
       ref_sop_uid := some "u1", pixel_data := some [[1]] } : Frame).segment_number
      = some (pyMaxD (segNums (initState [c2Frame]).frames) 0 + 1) :=
  (merge_segment_numbering_amended [c2Frame] (initState [c2Frame]) c2Second []).2.1
    rfl _ (by decide)

/-- C3: for every merge directive over frames whose pixel arrays are binary,
every emitted merged frame's label array contains only values in 0 and 1,
because the per-key sums are clipped to the range 0..1 before frames are
emitted (the clip makes this hold regardless of the source hypothesis). -/
theorem merge_binariness (st : MState) (it : MergeItem)
    (_hsrc : ∀ fr ∈ st.frames, ∀ px, fr.pixel_data = some px → binaryMask px) :
    ∀ fr ∈ (applyDirective st it).2, ∀ px, fr.pixel_data = some px → binaryMask px := by
  intro fr hfr px hpx
  rcases applyDirective_cases st it with h | h | ⟨nm, nf, hnf, -, h⟩ <;> rw [h] at hfr
  · cases hfr
  · cases hfr
  · obtain ⟨-, -, p, hp, hpx2⟩ := mem_newFramesOf_fields (hnf ▸ hfr)
    obtain ⟨q, -, rfl⟩ := List.mem_map.mp hp
    have hpe : px = clipArr q.2 := by
      rw [hpx2] at hpx
      exact (Option.some_inj.mp hpx).symm
    rw [hpe]
    exact binaryMask_clipArr q.2

/-- Witness for merge_binariness: merging the two overlapping binary frames
(whose elementwise sum is 2 before clipping) emits a frame whose clipped
array is binary. -/
theorem merge_binariness_witness : binaryMask [[1]] :=
  merge_binariness (initState [c3FrameA, c3FrameB]) c3Item
    (by
      intro fr hfr px hpx
      have hb : binaryMask [[1]] := by
        intro row hrow v hv
        rw [List.mem_singleton] at hrow
        subst hrow
        rw [List.mem_singleton] at hv
        subst hv
        right
        rfl
      rcases List.mem_cons.mp hfr with rfl | h2
      · obtain rfl : px = [[1]] := (Option.some_inj.mp hpx.symm)
        exact hb
      · rcases List.mem_cons.mp h2 with rfl | h3
        · obtain rfl : px = [[1]] := (Option.some_inj.mp hpx.symm)
          exact hb
        · cases h3)
    { frame_index := 2, segment_number := some 3, segment_name := some "C",
      segment_color := none, image_position_patient := none,
      ref_sop_uid := some "u1", pixel_data := some [[1]] }
    (by decide) [[1]] rfl

/-- C7: after applying any sequence of merge directives, every pre-existing
frame is still present at its original list position with the same data;
merges only append new frames. -/
theorem merge_non_destructive (st : MState) (its : List MergeItem) :
    ((runLog st its).1.frames).take st.frames.length = st.frames := by
  obtain ⟨tl, htl⟩ := runLog_frames_append st its
  rw [htl, List.take_left]

/-! ## Claim theorems: the decoder -/

theorem fallbackFrames_spec (ds : SegDcm) :
    (fallbackFrames ds).length = ds.pixelPlanes.length
    ∧ ∀ fr ∈ fallbackFrames ds,
        fr.segment_number = none ∧ fr.segment_name = none ∧ fr.ref_sop_uid = none := by
  constructor
  · unfold fallbackFrames
    rw [List.length_map, List.length_range]
  · intro fr hfr
    obtain ⟨i, -, rfl⟩ := List.mem_map.mp hfr
    exact ⟨rfl, rfl, rfl⟩

/-- C4: when the per-frame metadata block is present with exactly the
declared number of entries, the decoded frame list has exactly that many
frames; otherwise the decoder falls back to one frame per plane of the bulk
pixel array with null-filled segment and slice-identity fields; and in all
cases the recorded num_frames equals the length of the frame list. -/
theorem frame_count_invariant (ds : SegDcm) :
    (∀ pfs, ds.perFrameMeta = some pfs → pfs.length = ds.numberOfFrames.getD 0 →
      (decodeFrames ds).length = ds.numberOfFrames.getD 0)
    ∧ ((∀ pfs, ds.perFrameMeta = some pfs → pfs.length ≠ ds.numberOfFrames.getD 0) →
      (decodeFrames ds).length = ds.pixelPlanes.length
      ∧ ∀ fr ∈ decodeFrames ds,
          fr.segment_number = none ∧ fr.segment_name = none ∧ fr.ref_sop_uid = none)
    ∧ (decode_segmentation_dcm ds).num_frames = (decode_segmentation_dcm ds).frames.length := by
  refine ⟨?_, ?_, rfl⟩
  · intro pfs hpfs hlen
    unfold decodeFrames
    rw [hpfs]
    simp only [hlen, if_true]
    rw [List.length_map, List.length_range]
  · intro hmis
    have hfb : decodeFrames ds = fallbackFrames ds := by
      unfold decodeFrames
      cases hpfs : ds.perFrameMeta with
      | none => rfl
      | some pfs =>
        simp only []
        rw [if_neg (hmis pfs hpfs)]
    rw [hfb]
    exact fallbackFrames_spec ds

/-- Witness for frame_count_invariant at the two concrete datasets. -/
theorem frame_count_invariant_witness :
    (decodeFrames c4DsMain).length = c4DsMain.numberOfFrames.getD 0
    ∧ ((decodeFrames c4DsFb).length = c4DsFb.pixelPlanes.length
      ∧ ∀ fr ∈ decodeFrames c4DsFb,
          fr.segment_number = none ∧ fr.segment_name = none ∧ fr.ref_sop_uid = none) :=
  ⟨(frame_count_invariant c4DsMain).1 [c4Meta] rfl (by decide),
   (frame_count_invariant c4DsFb).2.1
     (by
       intro pfs h
       obtain rfl := Option.some_inj.mp h
       decide)⟩

/-! ## Claim theorems: the reference-series resolver -/

theorem find?_first {α : Type} (p : α → Bool) (pre post : List α) (a : α)
    (ha : p a = true) (hpre : ∀ x ∈ pre, p x = false) :
    (pre ++ a :: post).find? p = some a := by
  induction pre with
  | nil => exact List.find?_cons_of_pos post ha
  | cons x xs ih =>
    rw [List.cons_append,
      List.find?_cons_of_neg _ (by rw [hpre x (List.mem_cons_self x xs)]; simp)]
    exact ih (fun y hy => hpre y (List.mem_cons_of_mem x hy))

/-- C9: the resolver matches by exact string equality on the series
identity, the first matching catalog entry wins when duplicates exist, and
when no entry matches the record gets a null series reference. -/
theorem resolver_first_exact_match (catalog pre post : List (String × SeriesEntry))
    (k : String) (e : SeriesEntry) (u : String) (hu : u ≠ "") :
    (∀ info, step_2_4_1_attach (some u) catalog = .attached info →
        info.series_uid = some u)
    ∧ (e.series_uid = some u → (∀ kv ∈ pre, kv.2.series_uid ≠ some u) →
        step_2_4_1_attach (some u) (pre ++ (k, e) :: post)
          = .attached { series_folder_path := e.series_folder_path,
                        series_number := e.series_number,
                        series_uid := e.series_uid,
                        series_description := e.series_description })
    ∧ ((∀ kv ∈ catalog, kv.2.series_uid ≠ some u) →
        step_2_4_1_attach (some u) catalog = .nullRef) := by
  refine ⟨?_, ?_, ?_⟩
  · intro info hinfo
    simp only [step_2_4_1_attach] at hinfo
    rw [if_neg hu] at hinfo
    cases hf : findMatchingSeries catalog u with
    | none =>
      rw [hf] at hinfo
      cases hinfo
    | some kv =>
      rw [hf] at hinfo
      cases hinfo
      unfold findMatchingSeries at hf
      have hp := List.find?_some hf
      exact of_decide_eq_true hp
  · intro he hpre
    simp only [step_2_4_1_attach]
    rw [if_neg hu]
    have hf : findMatchingSeries (pre ++ (k, e) :: post) u = some (k, e) := by
      unfold findMatchingSeries
      exact find?_first _ pre post (k, e) (decide_eq_true he)
        (fun x hx => decide_eq_false (hpre x hx))
    rw [hf]
  · intro hnone
    simp only [step_2_4_1_attach]
    rw [if_neg hu]
    have hf : findMatchingSeries catalog u = none := by
      unfold findMatchingSeries
      rw [List.find?_eq_none]
      intro x hx
      simpa using hnone x hx
    rw [hf]

/-- Witness for resolver_first_exact_match: a later matching entry after a
non-matching one is attached, and an unmatched identity yields null. -/
theorem resolver_first_exact_match_witness :
    step_2_4_1_attach (some "uidA") ([("s3", c9Other)] ++ ("s1", c9Match) :: [])
        = .attached { series_folder_path := "/data/s1", series_number := "2",
                      series_uid := some "uidA", series_description := "ct" }
    ∧ step_2_4_1_attach (some "zz") [("s3", c9Other)] = .nullRef :=
  ⟨(resolver_first_exact_match [] [("s3", c9Other)] [] "s1" c9Match "uidA"
      (by decide)).2.1 rfl (by decide),
   (resolver_first_exact_match [("s3", c9Other)] [] [] "s1" c9Match "zz"
      (by decide)).2.2 (by decide)⟩

/-! ## Claim theorems: the existing-output policy -/

/-- C1 counterexample: with an existing file, no overwrite flag, and a
successfully loading file of shape (1,1,1) while the expected shape is
(2,2,2) — a shape mismatch — step 2.4.2 still skips regeneration, because
its policy never compares the loaded shape.  The claim requires a shape
mismatch to force regeneration in both steps. -/
theorem intensity_skip_ignores_shape_cex :
    step_2_4_2_existing_policy true false (.success (1, 1, 1)) = .skip
    ∧ (1, 1, 1) ≠ ((2, 2, 2) : Nat × Nat × Nat) :=
  ⟨rfl, by decide⟩

/-- C1 (amended): without the overwrite flag, the label-volume step skips
exactly when the existing file loads with the expected shape (so a shape
mismatch or read failure forces regeneration there), but the
intensity-volume step skips whenever the existing file loads at all,
regardless of its shape — only a read failure forces regeneration there. -/
theorem existing_output_policy_amended (e o : Bool) (l : LoadOutcome)
    (sh : Nat × Nat × Nat) :
    (step_2_4_3_existing_policy e o l sh = .skip
        ↔ e = true ∧ o = false ∧ l = .success sh)
    ∧ (step_2_4_2_existing_policy e o l = .skip
        ↔ e = true ∧ o = false ∧ ∃ s, l = .success s) := by
  cases e <;> cases o <;> cases l <;>
    simp [step_2_4_2_existing_policy, step_2_4_3_existing_policy]

/-! ## Claim theorems: label-volume construction -/

theorem mem_dictUpd {K V : Type} [DecidableEq K] {m : List (K × V)} {k : K} {v : V}
    {q : K × V} (h : q ∈ dictUpd m k v) : q ∈ m ∨ q = (k, v) := by
  unfold dictUpd at h
  split at h
  · obtain ⟨p, hp, hq⟩ := List.mem_map.mp h
    by_cases hk : p.1 = k
    · rw [if_pos hk] at hq
      exact Or.inr hq.symm
    · rw [if_neg hk] at hq
      exact Or.inl (hq ▸ hp)
  · rcases List.mem_append.mp h with h1 | h2
    · exact Or.inl h1
    · rw [List.mem_singleton] at h2
      exact Or.inr h2

/-- Every entry of the sop_uid_to_index dict built by successive assignments
satisfies any property that holds of the seed entries and of every
(value, enumeration index) pair. -/
theorem buildSopIndexAux_sound (G : Option String × Nat → Prop) :
    ∀ (sl : List (Option String)) (i0 : Nat) (m : List (Option String × Nat)),
      (∀ q ∈ m, G q) →
      (∀ j s, sl.get? j = some s → G (s, i0 + j)) →
      ∀ q ∈ buildSopIndexAux sl i0 m, G q := by
  intro sl
  induction sl with
  | nil =>
    intro i0 m hm _ q hq
    exact hm q hq
  | cons s rest ih =>
    intro i0 m hm hsl q hq
    refine ih (i0 + 1) (dictUpd m s i0) ?_ ?_ q hq
    · intro q2 hq2
      rcases mem_dictUpd hq2 with h1 | rfl
      · exact hm q2 h1
      · simpa using hsl 0 s rfl
    · intro j s2 hj
      have h2 := hsl (j + 1) s2 (by simpa using hj)
      have h3 : i0 + (j + 1) = (i0 + 1) + j := by omega
      rwa [h3] at h2

/-- Soundness of sop_uid_to_index: a lookup that returns index i means the
i-th entry of the ordered SOP UID list is exactly the looked-up identity. -/
theorem sopIndex_get {sl : List (Option String)} {k : Option String} {i : Nat}
    (h : dictGet (buildSopIndex sl) k = some i) : sl.get? i = some k := by
  unfold dictGet at h
  cases hf : (buildSopIndex sl).find? (fun p => decide (p.1 = k)) with
  | none =>
    rw [hf] at h
    cases h
  | some p =>
    rw [hf] at h
    have h2 : some p.2 = some i := by simpa using h
    obtain rfl : p.2 = i := Option.some_inj.mp h2
    have hmem : p ∈ buildSopIndex sl := List.mem_of_find?_eq_some hf
    have hpk : p.1 = k := by
      have hb := List.find?_some hf
      simpa using hb
    have hsound := buildSopIndexAux_sound (fun q => sl.get? q.2 = some q.1) sl 0 []
      (by intro q hq; cases hq)
      (by intro j s hj; simpa using hj)
      p hmem
    simpa [hpk] using hsound

/-- An identity absent from the ordered SOP UID list is absent from the
lookup. -/
theorem sopIndex_none {sl : List (Option String)} {k : Option String}
    (h : ∀ j, sl.get? j ≠ some k) : dictGet (buildSopIndex sl) k = none := by
  cases hg : dictGet (buildSopIndex sl) k with
  | none => rfl
  | some i => exact absurd (sopIndex_get hg) (h i)

/-- C5 (amended): a frame's array is placed at slice index i only if the
frame's slice identity equals the i-th entry of the series' ordered instance
identifier list (both possibly absent — a frame whose identity is absent is
only placed when some reference slice also lacks its identifier, which is
what the counterexample exploits); a frame whose identity matches no entry
contributes no placement and the remaining frames are unaffected; there is
no positional fallback. -/
theorem slice_mapping_amended (frames : List Frame) (sl : List (Option String))
    (name : Option String) :
    (∀ i px, (i, px) ∈ placementsFor frames sl name →
      ∃ fr ∈ frames, fr.segment_name = name ∧ fr.pixel_data = some px ∧
        sl.get? i = some fr.ref_sop_uid)
    ∧ (∀ (l₁ l₂ : List Frame) (fr : Frame),
        (∀ j, sl.get? j ≠ some fr.ref_sop_uid) →
        placementsFor (l₁ ++ fr :: l₂) sl name
          = placementsFor l₁ sl name ++ placementsFor l₂ sl name) := by
  constructor
  · intro i px hmem
    obtain ⟨fr, hfr, hsome⟩ := List.mem_filterMap.mp hmem
    by_cases hn : fr.segment_name = name
    · rw [if_pos hn] at hsome
      cases hpd : fr.pixel_data with
      | none =>
        rw [hpd] at hsome
        cases hsome
      | some px2 =>
        cases hdg : dictGet (buildSopIndex sl) fr.ref_sop_uid with
        | none =>
          rw [hpd, hdg] at hsome
          cases hsome
        | some i2 =>
          rw [hpd, hdg] at hsome
          have hpair := Option.some_inj.mp hsome
          obtain ⟨rfl, rfl⟩ := Prod.mk.injEq i2 px2 i px ▸ hpair
          exact ⟨fr, hfr, hn, hpd, sopIndex_get hdg⟩
    · rw [if_neg hn] at hsome
      cases hsome
  · intro l₁ l₂ fr h
    unfold placementsFor
    simp only [List.filterMap_append, List.filterMap_cons]
    by_cases hn : fr.segment_name = name
    · rw [if_pos hn, sopIndex_none h]
      cases fr.pixel_data <;> rfl
    · rw [if_neg hn]

/-- C5 counterexample: the claim says frames whose slice identity is absent
are dropped, but when a reference slice also lacks its SOP instance UID the
dict maps the absent identity to that slice's index and the frame is placed
there instead of being dropped. -/
theorem absent_identity_placed_cex :
    c5Frame.ref_sop_uid = none
    ∧ placementsFor [c5Frame] [none] (some "S") = [(0, [[1]])] :=
  ⟨rfl, rfl⟩

/-- Witness for slice_mapping_amended: the placed frame's identity equals
the matched identifier, and the unmatched frame contributes nothing. -/
theorem slice_mapping_amended_witness :
    (∃ fr ∈ [c5Matched], fr.segment_name = some "S" ∧ fr.pixel_data = some [[1]]
        ∧ [some "a", some "b"].get? 1 = some fr.ref_sop_uid)
    ∧ placementsFor ([] ++ c5Unmatched :: []) [some "a"] (some "S")
        = placementsFor [] [some "a"] (some "S")
          ++ placementsFor [] [some "a"] (some "S") :=
  ⟨(slice_mapping_amended [c5Matched] [some "a", some "b"] (some "S")).1 1 [[1]]
      (by decide),
   (slice_mapping_amended [c5Matched] [some "a"] (some "S")).2 [] [] c5Unmatched
      (by intro j; cases j <;> simp [c5Unmatched])⟩

/-- C8: a placement whose 2D shape disagrees with the reference (rows, cols)
is skipped outright — the volume is exactly what it would be without that
placement; the array is never resized and the remaining placements still
apply. -/
theorem geometry_mismatch_skip (vol : List Mask) (rows cols : Nat)
    (l₁ l₂ : List (Nat × Mask)) (bad : Nat × Mask)
    (h : ¬ (shape0 bad.2 = rows ∧ shape1 bad.2 = cols)) :
    placeAllFrames vol rows cols (l₁ ++ bad :: l₂)
      = placeAllFrames vol rows cols (l₁ ++ l₂) := by
  unfold placeAllFrames
  rw [List.foldl_append, List.foldl_append, List.foldl_cons]
  congr 1
  unfold placeFrame
  rw [if_neg h]

/-- Witness for geometry_mismatch_skip: a 1x2 array against a 1x1 series. -/
theorem geometry_mismatch_skip_witness :
    placeAllFrames [[[0]]] 1 1 ([(0, [[5]])] ++ (0, [[1, 2]]) :: [])
      = placeAllFrames [[[0]]] 1 1 ([(0, [[5]])] ++ []) :=
  geometry_mismatch_skip [[[0]]] 1 1 [(0, [[5]])] [] (0, [[1, 2]]) (by decide)

theorem placeFrame_length (vol : List Mask) (rows cols : Nat) (p : Nat × Mask) :
    (placeFrame vol rows cols p).length = vol.length := by
  unfold placeFrame
  split
  · exact List.length_set vol p.1 p.2
  · rfl

theorem placeAllFrames_length (vol : List Mask) (rows cols : Nat)
    (ps : List (Nat × Mask)) :
    (placeAllFrames vol rows cols ps).length = vol.length := by
  induction ps generalizing vol with
  | nil => rfl
  | cons p l ih =>
    show (placeAllFrames (placeFrame vol rows cols p) rows cols l).length = _
    rw [ih (placeFrame vol rows cols p), placeFrame_length]

theorem placeAll_get_preserve (rows cols : Nat) (i : Nat) (m : Mask) :
    ∀ (l : List (Nat × Mask)) (vol : List Mask),
      vol.get? i = some m →
      (∀ p ∈ l, p.1 = i → ¬ (shape0 p.2 = rows ∧ shape1 p.2 = cols)) →
      (placeAllFrames vol rows cols l).get? i = some m := by
  intro l
  induction l with
  | nil =>
    intro vol h _
    exact h
  | cons p ps ih =>
    intro vol h hl
    show (placeAllFrames (placeFrame vol rows cols p) rows cols ps).get? i = some m
    refine ih (placeFrame vol rows cols p) ?_ (fun q hq => hl q (List.mem_cons_of_mem p hq))
    unfold placeFrame
    split
    · rename_i hsh
      have hne : p.1 ≠ i := fun he => hl p (List.mem_cons_self p ps) he hsh
      rw [List.get?_eq_getElem?, List.getElem?_set_ne hne, ← List.get?_eq_getElem?]
      exact h
    · exact h

/-- C10: when several placements target the same slice index, the final mask
at that slice is exactly the 2D array of the last well-shaped placement —
each placement overwrites the whole slice by assignment, with no union and
no accumulation, and collisions raise no error. -/
theorem overlap_last_write_wins (vol : List Mask) (rows cols : Nat)
    (l₁ l₂ : List (Nat × Mask)) (i : Nat) (m : Mask)
    (hi : i < vol.length) (hs : shape0 m = rows ∧ shape1 m = cols)
    (h₂ : ∀ p ∈ l₂, p.1 = i → ¬ (shape0 p.2 = rows ∧ shape1 p.2 = cols)) :
    (placeAllFrames vol rows cols (l₁ ++ (i, m) :: l₂)).get? i = some m := by
  unfold placeAllFrames
  rw [List.foldl_append, List.foldl_cons]
  refine placeAll_get_preserve rows cols i m l₂ _ ?_ h₂
  show (placeFrame (placeAllFrames vol rows cols l₁) rows cols (i, m)).get? i = some m
  unfold placeFrame
  rw [if_pos hs]
  have hlen : (placeAllFrames vol rows cols l₁).length = vol.length :=
    placeAllFrames_length vol rows cols l₁
  rw [List.get?_eq_getElem?, List.getElem?_set_self (by rw [hlen]; exact hi)]

/-- Witness for overlap_last_write_wins: two placements at slice 1; the
later one's array is the final slice. -/
theorem overlap_last_write_wins_witness :
    (placeAllFrames [[[0]], [[0]]] 1 1 ([(1, [[1]])] ++ (1, [[9]]) :: [])).get? 1
      = some [[9]] :=
  overlap_last_write_wins [[[0]], [[0]]] 1 1 [(1, [[1]])] [] 1 [[9]]
    (by decide) (by decide) (by simp)

/-! ## Claim theorems: the two series loaders agree -/

/-- Every slice of a built label volume keeps the reference row count: the
initial zero slices have it and every well-shaped placement preserves it. -/
theorem placeAllFrames_rows (rows cols : Nat) :
    ∀ (ps : List (Nat × Mask)) (vol : List Mask),
      (∀ v ∈ vol, shape0 v = rows) →
      ∀ msk ∈ placeAllFrames vol rows cols ps, shape0 msk = rows := by
  intro ps
  induction ps with
  | nil =>
    intro vol h msk hm
    exact h msk hm
  | cons p l ih =>
    intro vol h msk hm
    refine ih (placeFrame vol rows cols p) ?_ msk hm
    intro v hv
    unfold placeFrame at hv
    split at hv
    · rename_i hsh
      rcases List.mem_or_eq_of_mem_set hv with h1 | rfl
      · exact h v h1
      · exact hsh.1
    · exact h v hv

/-- C6: for the same slice list, load_dicom_series (which stacks the pixel
data for the intensity volume) and load_sop_uid_order (which collects the
ordered instance identifiers for label volumes) compute the same shape and
the same affine, and a label volume built from load_sop_uid_order's result
has that series' slice count and row count in every slice — so intensity
and label volumes share shape and affine. -/
theorem volume_shape_affine_identity (slices : List DSlice) (frames : List Frame)
    (name : Option String) :
    ((load_dicom_series slices).map (fun r => r.dims)
        = (load_sop_uid_order slices).map (fun r => r.shape))
    ∧ ((load_dicom_series slices).map (fun r => r.affine)
        = (load_sop_uid_order slices).map (fun r => r.affine))
    ∧ (∀ r, load_sop_uid_order slices = some r →
        (buildSegMask frames r.sopList r.shape.1 r.shape.2.1 name).length = r.shape.2.2
        ∧ ∀ msk ∈ buildSegMask frames r.sopList r.shape.1 r.shape.2.1 name,
            shape0 msk = r.shape.1) := by
  cases hs : sortSlices slices with
  | nil =>
    refine ⟨?_, ?_, ?_⟩ <;> simp [load_dicom_series, load_sop_uid_order, hs]
  | cons sample rest =>
    refine ⟨?_, ?_, ?_⟩
    · simp only [load_dicom_series, load_sop_uid_order, hs, Option.map_some']
    · simp only [load_dicom_series, load_sop_uid_order, hs, Option.map_some']
      cases sample.pixelSpacing <;> cases sample.sliceThickness <;>
        cases sample.iop <;> cases sample.ipp <;> rfl
    · intro r hr
      simp only [load_sop_uid_order, hs] at hr
      obtain rfl := (Option.some_inj.mp hr).symm
      constructor
      · unfold buildSegMask
        rw [placeAllFrames_length, List.length_replicate, List.length_map]
      · intro msk hm
        refine placeAllFrames_rows _ _ _ _ ?_ msk hm
        intro v hv
        obtain ⟨-, rfl⟩ := List.mem_replicate.mp hv
        exact List.length_replicate _ _

/-- Witness for volume_shape_affine_identity at the concrete series. -/
theorem volume_shape_affine_identity_witness :
    (buildSegMask [] [some "s0"] 1 1 none).length = 1
    ∧ ∀ msk ∈ buildSegMask [] [some "s0"] 1 1 none, shape0 msk = 1 :=
  (volume_shape_affine_identity [c6Slice] [] none).2.2
    { sopList := [some "s0"], shape := (1, 1, 1),
      affine := [[1, 0, 0, 0], [0, 1, 0, 0], [0, 0, 1, 0], [0, 0, 0, 1]] }
    (by
      norm_num [load_sop_uid_order, c6Slice, sortSlices, insertSorted,
        sliceSortKey, crossProd, mkAffine])

end XNATSeg
